import Mathlib

/-!
Shallow embedding of `GameTheoryalgorithms.py`: iterated best-response
dynamics for a two-player matrix game.  Payoff matrices are lists of rows
of rationals, strategy vectors are lists of rationals; `numpy` floating
point is idealised as exact rational arithmetic.
-/

namespace GameTheory

/-- Dot product of two rational vectors (the inner step of `payoff_matrix @ strategy`). -/
def dot : List ℚ → List ℚ → ℚ
  | [], _ => 0
  | _, [] => 0
  | x :: xs, y :: ys => x * y + dot xs ys

/-- Matrix-vector product `payoff_matrix @ strategy` (row i ↦ expected payoff of action i). -/
def matVec (M : List (List ℚ)) (s : List ℚ) : List ℚ :=
  M.map (fun row => dot row s)

/-- Maximum value of a list of rationals (0 for the empty list, which never arises). -/
def maxVal : List ℚ → ℚ
  | [] => 0
  | [x] => x
  | x :: y :: ys => max x (maxVal (y :: ys))

/-- Model of `np.argmax`: index of the first occurrence of the maximum value. -/
def argmax : List ℚ → Nat
  | [] => 0
  | [_] => 0
  | x :: y :: ys => if maxVal (y :: ys) ≤ x then 0 else argmax (y :: ys) + 1

/-- Model of `best_response(strategy, payoff_matrix) = np.argmax(payoff_matrix @ strategy)`. -/
def best_response (strategy : List ℚ) (payoff_matrix : List (List ℚ)) : Nat :=
  argmax (matVec payoff_matrix strategy)

/-- Model of `np.argmax(payoff_matrix @ strategy)` with the `numpy` failure modes explicit:
`@` raises on a dimension mismatch between the strategy length and the row length
(column count), and `argmax` raises on an empty result. -/
def best_response_checked (strategy : List ℚ) (payoff_matrix : List (List ℚ)) :
    Except String Nat :=
  if payoff_matrix.all (fun row => row.length == strategy.length) then
    match matVec payoff_matrix strategy with
    | [] => .error "attempt to get argmax of an empty sequence"
    | p :: ps => .ok (argmax (p :: ps))
  else .error "matmul: dimension mismatch"

/-- Model of `np.zeros(n)` followed by `v[i] = 1`: the one-hot vector of length `n` at index `i`. -/
def oneHot (n : Nat) (i : Nat) : List ℚ :=
  (List.replicate n (0 : ℚ)).set i 1

/-- Model of `np.ones(n) / n`: the uniform strategy over `n` actions. -/
def uniform (n : Nat) : List ℚ :=
  List.replicate n ((1 : ℚ) / n)

/-- The `numpy` default relative tolerance `rtol = 1e-5`, which `np.allclose(prev, new,
atol=tolerance)` keeps in force since the source only overrides `atol`. -/
def npRtol : ℚ := 1 / 100000

/-- Model of `np.allclose(a, b, atol=tol)` on equal-length vectors: componentwise
`|a i - b i| ≤ tol + rtol * |b i|` with `rtol = 1e-5`. -/
def allclose (tol : ℚ) : List ℚ → List ℚ → Bool
  | [], [] => true
  | x :: xs, y :: ys => decide (|x - y| ≤ tol + npRtol * |y|) && allclose tol xs ys
  | _, _ => false

/-- One round of the loop body: one-hot Player A's best response to `sb`,
then one-hot Player B's best response to the just-updated `strategy_a`. -/
def nashRound (A B : List (List ℚ)) (sa sb : List ℚ) : List ℚ × List ℚ :=
  let best_a := best_response sb A
  let sa' := oneHot A.length best_a
  let best_b := best_response sa' B
  (sa', oneHot B.length best_b)

/-- Result of a run: final strategies, number of loop rounds executed, and
whether some round's convergence check passed (the loop broke early). -/
structure RunResult where
  strategy_a : List ℚ
  strategy_b : List ℚ
  rounds : Nat
  converged : Bool
  deriving DecidableEq, Repr

/-- The `for _ in range(max_iterations)` loop of `calculate_nash_equilibrium`,
instrumented with the round count and the convergence flag. -/
def nashLoop (A B : List (List ℚ)) (tol : ℚ) : Nat → List ℚ → List ℚ → RunResult
  | 0, sa, sb => ⟨sa, sb, 0, false⟩
  | fuel + 1, sa, sb =>
    let p := nashRound A B sa sb
    if allclose tol sa p.1 && allclose tol sb p.2 then
      ⟨p.1, p.2, 1, true⟩
    else
      let r := nashLoop A B tol fuel p.1 p.2
      ⟨r.strategy_a, r.strategy_b, r.rounds + 1, r.converged⟩

/-- The function `calculate_nash_equilibrium` with the run instrumentation exposed. -/
def calculate_nash_equilibrium_run (A B : List (List ℚ)) (max_iterations : Nat)
    (tolerance : ℚ) : RunResult :=
  nashLoop A B tolerance max_iterations (uniform A.length) (uniform B.length)

/-- Model of `calculate_nash_equilibrium(payoff_matrix_a, payoff_matrix_b, max_iterations, tolerance)`:
the returned `(strategy_a, strategy_b)` pair. -/
def calculate_nash_equilibrium (A B : List (List ℚ)) (max_iterations : Nat)
    (tolerance : ℚ) : List ℚ × List ℚ :=
  let r := calculate_nash_equilibrium_run A B max_iterations tolerance
  (r.strategy_a, r.strategy_b)

/-- Default `max_iterations=1000` of the source. -/
def defaultMaxIterations : Nat := 1000

/-- Default `tolerance=1e-6` of the source. -/
def defaultTolerance : ℚ := 1 / 1000000

/-- The per-round stop condition exactly as the source tests it:
`np.allclose(prev_a, new_a, atol=tol) and np.allclose(prev_b, new_b, atol=tol)`. -/
def stopCond (A B : List (List ℚ)) (tol : ℚ) (sa sb : List ℚ) : Bool :=
  allclose tol sa (nashRound A B sa sb).1 && allclose tol sb (nashRound A B sa sb).2

/-- The stop criterion as the specification words it: every component of the new
vector within `tol` (absolute difference) of the previous one.  Kept separate from
`allclose` so the two can be compared (they differ by the `rtol` term). -/
def withinTolAbs (tol : ℚ) : List ℚ → List ℚ → Bool
  | [], [] => true
  | x :: xs, y :: ys => decide (|x - y| ≤ tol) && withinTolAbs tol xs ys
  | _, _ => false

/-- Every entry of the vector is 0. -/
def allZero : List ℚ → Bool
  | [] => true
  | x :: xs => decide (x = 0) && allZero xs

/-- A strategy vector is one-hot: exactly one entry equal to 1 and all other entries 0. -/
def isOneHot : List ℚ → Bool
  | [] => false
  | x :: xs => (decide (x = 1) && allZero xs) || (decide (x = 0) && isOneHot xs)

/-- The specification's relational contract for `best_response`: `i` is in range,
maximises the expected payoff `dot (row i) s`, and is the least such index. -/
def IsBestResponseSpec (s : List ℚ) (M : List (List ℚ)) (i : Nat) : Prop :=
  i < M.length ∧
  (∀ j, j < M.length → dot (M.getD j []) s ≤ dot (M.getD i []) s) ∧
  (∀ j, j < i → dot (M.getD j []) s < dot (M.getD i []) s)

/-- The round of `calculate_nash_equilibrium` with the `numpy` dimension errors explicit:
each `best_response` call may fail, and a failure aborts the run. -/
def nashRoundChecked (A B : List (List ℚ)) (sa sb : List ℚ) :
    Except String (List ℚ × List ℚ) :=
  match best_response_checked sb A with
  | .error e => .error e
  | .ok best_a =>
    match best_response_checked (oneHot A.length best_a) B with
    | .error e => .error e
    | .ok best_b => .ok (oneHot A.length best_a, oneHot B.length best_b)

/-- The loop of `calculate_nash_equilibrium`, propagating `numpy` errors. -/
def nashLoopChecked (A B : List (List ℚ)) (tol : ℚ) :
    Nat → List ℚ → List ℚ → Except String (List ℚ × List ℚ)
  | 0, sa, sb => .ok (sa, sb)
  | fuel + 1, sa, sb =>
    match nashRoundChecked A B sa sb with
    | .error e => .error e
    | .ok p =>
      if allclose tol sa p.1 && allclose tol sb p.2 then .ok (p.1, p.2)
      else nashLoopChecked A B tol fuel p.1 p.2

/-- Top-level checked run. -/
def calculate_nash_equilibrium_checked (A B : List (List ℚ)) (max_iterations : Nat)
    (tolerance : ℚ) : Except String (List ℚ × List ℚ) :=
  nashLoopChecked A B tolerance max_iterations (uniform A.length) (uniform B.length)

/-- Player A's example payoff matrix from `main`. -/
def pdA : List (List ℚ) := [[3, 0], [5, 1]]

/-- Player B's example payoff matrix from `main`. -/
def pdB : List (List ℚ) := [[3, 5], [0, 1]]

/-- Matching-pennies payoff matrix for Player A. -/
def mpA : List (List ℚ) := [[1, -1], [-1, 1]]

/-- Matching-pennies payoff matrix for Player B. -/
def mpB : List (List ℚ) := [[-1, 1], [1, -1]]

lemma matVec_length (M : List (List ℚ)) (s : List ℚ) : (matVec M s).length = M.length := by
  simp [matVec]

lemma matVec_ne_nil {M : List (List ℚ)} (s : List ℚ) (hM : M ≠ []) : matVec M s ≠ [] := by
  cases M with
  | nil => exact absurd rfl hM
  | cons r rs => simp [matVec]

lemma matVec_getD (M : List (List ℚ)) (s : List ℚ) :
    ∀ i, i < M.length → (matVec M s).getD i 0 = dot (M.getD i []) s := by
  induction M with
  | nil => intro i hi; simp at hi
  | cons r rs ih =>
    intro i hi
    cases i with
    | zero => simp [matVec]
    | succ j =>
      have hj : j < rs.length := by simpa using hi
      simpa [matVec, List.getD_cons_succ] using ih j hj

lemma getD_le_maxVal : ∀ (l : List ℚ) (i : Nat), i < l.length → l.getD i 0 ≤ maxVal l := by
  intro l
  induction l with
  | nil => intro i hi; simp at hi
  | cons x xs ih =>
    intro i hi
    cases xs with
    | nil =>
      cases i with
      | zero => simp [maxVal]
      | succ j => simp at hi
    | cons y ys =>
      cases i with
      | zero => simp [maxVal]
      | succ j =>
        have hj : j < (y :: ys).length := by simpa using hi
        have h1 := ih j hj
        have h2 : maxVal (y :: ys) ≤ maxVal (x :: y :: ys) := by
          simp [maxVal]
        simpa [List.getD_cons_succ] using le_trans h1 h2

lemma argmax_lt_length : ∀ (l : List ℚ), l ≠ [] → argmax l < l.length := by
  intro l
  induction l with
  | nil => intro h; exact absurd rfl h
  | cons x xs ih =>
    intro _
    cases xs with
    | nil => simp [argmax]
    | cons y ys =>
      by_cases h : maxVal (y :: ys) ≤ x
      · simp [argmax, h]
      · have := ih (by simp)
        simp only [argmax, if_neg h]
        simpa using Nat.succ_lt_succ this

lemma getD_argmax_eq_maxVal : ∀ (l : List ℚ), l ≠ [] → l.getD (argmax l) 0 = maxVal l := by
  intro l
  induction l with
  | nil => intro h; exact absurd rfl h
  | cons x xs ih =>
    intro _
    cases xs with
    | nil => simp [argmax, maxVal]
    | cons y ys =>
      by_cases h : maxVal (y :: ys) ≤ x
      · simp [argmax, maxVal, if_pos h, max_eq_left h]
      · have hx : x ≤ maxVal (y :: ys) := le_of_lt (lt_of_not_le h)
        have := ih (by simp)
        simp only [argmax, if_neg h, List.getD_cons_succ]
        rw [this]
        exact (max_eq_right hx).symm

lemma getD_lt_maxVal_of_lt_argmax :
    ∀ (l : List ℚ) (j : Nat), j < argmax l → l.getD j 0 < maxVal l := by
  intro l
  induction l with
  | nil => intro j hj; simp [argmax] at hj
  | cons x xs ih =>
    intro j hj
    cases xs with
    | nil => simp [argmax] at hj
    | cons y ys =>
      by_cases h : maxVal (y :: ys) ≤ x
      · simp [argmax, if_pos h] at hj
      · have hx : x < maxVal (y :: ys) := lt_of_not_le h
        have hmax : maxVal (x :: y :: ys) = maxVal (y :: ys) := by
          simp [maxVal, max_eq_right (le_of_lt hx)]
        simp only [argmax, if_neg h] at hj
        cases j with
        | zero => simpa [hmax] using hx
        | succ j' =>
          have hj' : j' < argmax (y :: ys) := by omega
          simpa [hmax, List.getD_cons_succ] using ih j' hj'

lemma isBestResponseSpec_best_response (s : List ℚ) (M : List (List ℚ)) (hM : M ≠ []) :
    IsBestResponseSpec s M (best_response s M) := by
  have hP : matVec M s ≠ [] := matVec_ne_nil s hM
  have hlen : (matVec M s).length = M.length := matVec_length M s
  have hlt : argmax (matVec M s) < M.length := hlen ▸ argmax_lt_length _ hP
  have hval : (matVec M s).getD (argmax (matVec M s)) 0 = maxVal (matVec M s) :=
    getD_argmax_eq_maxVal _ hP
  have hbr : (matVec M s).getD (best_response s M) 0 = dot (M.getD (best_response s M) []) s :=
    matVec_getD M s _ hlt
  refine ⟨hlt, ?_, ?_⟩
  · intro j hj
    have h1 : dot (M.getD j []) s = (matVec M s).getD j 0 := (matVec_getD M s j hj).symm
    have h2 : (matVec M s).getD j 0 ≤ maxVal (matVec M s) :=
      getD_le_maxVal _ j (by omega)
    rw [h1, ← hbr]
    exact le_of_le_of_eq h2 hval.symm
  · intro j hj
    have hjM : j < M.length := lt_trans hj hlt
    have h1 : dot (M.getD j []) s = (matVec M s).getD j 0 := (matVec_getD M s j hjM).symm
    have h2 : (matVec M s).getD j 0 < maxVal (matVec M s) :=
      getD_lt_maxVal_of_lt_argmax _ j hj
    rw [h1, ← hbr]
    exact lt_of_lt_of_eq h2 hval.symm

lemma isBestResponseSpec_unique {s : List ℚ} {M : List (List ℚ)} {i j : Nat}
    (hi : IsBestResponseSpec s M i) (hj : IsBestResponseSpec s M j) : i = j := by
  rcases Nat.lt_trichotomy i j with h | h | h
  · have h1 : dot (M.getD i []) s < dot (M.getD j []) s := hj.2.2 i h
    have h2 : dot (M.getD j []) s ≤ dot (M.getD i []) s := hi.2.1 j hj.1
    exact absurd (lt_of_lt_of_le h1 h2) (lt_irrefl _)
  · exact h
  · have h1 : dot (M.getD j []) s < dot (M.getD i []) s := hi.2.2 j h
    have h2 : dot (M.getD i []) s ≤ dot (M.getD j []) s := hj.2.1 i hi.1
    exact absurd (lt_of_lt_of_le h1 h2) (lt_irrefl _)

/-- C2: for every payoff matrix `M` with at least one row and every strategy `s` whose
length equals the column count of `M`, `best_response s M` is in range, maximises the
expected payoff `dot (row i) s = sum_j M[i][j] * s[j]`, and every strictly smaller index
gives a strictly smaller expected payoff — i.e. the lowest maximising index is returned. -/
theorem best_response_is_first_maximizer (s : List ℚ) (M : List (List ℚ))
    (hM : M ≠ []) (hlen : ∀ row ∈ M, row.length = s.length) :
    best_response s M < M.length ∧
    (∀ j, j < M.length → dot (M.getD j []) s ≤ dot (M.getD (best_response s M) []) s) ∧
    (∀ j, j < best_response s M → dot (M.getD j []) s < dot (M.getD (best_response s M) []) s) :=
  isBestResponseSpec_best_response s M hM

/-- Witness for C2 at a concrete tied matrix `[[2,2],[2,2],[0,0]]` against `[1/2,1/2]`:
rows 0 and 1 tie for the maximal expected payoff and the theorem applies. -/
theorem best_response_is_first_maximizer_witness :
    ([[2, 2], [2, 2], [0, 0]] : List (List ℚ)) ≠ [] ∧
    (∀ row ∈ ([[2, 2], [2, 2], [0, 0]] : List (List ℚ)),
      row.length = ([1/2, 1/2] : List ℚ).length) ∧
    (best_response [1/2, 1/2] [[2, 2], [2, 2], [0, 0]] <
       ([[2, 2], [2, 2], [0, 0]] : List (List ℚ)).length ∧
     (∀ j, j < ([[2, 2], [2, 2], [0, 0]] : List (List ℚ)).length →
       dot (([[2, 2], [2, 2], [0, 0]] : List (List ℚ)).getD j []) [1/2, 1/2] ≤
       dot (([[2, 2], [2, 2], [0, 0]] : List (List ℚ)).getD
         (best_response [1/2, 1/2] [[2, 2], [2, 2], [0, 0]]) []) [1/2, 1/2]) ∧
     (∀ j, j < best_response [1/2, 1/2] [[2, 2], [2, 2], [0, 0]] →
       dot (([[2, 2], [2, 2], [0, 0]] : List (List ℚ)).getD j []) [1/2, 1/2] <
       dot (([[2, 2], [2, 2], [0, 0]] : List (List ℚ)).getD
         (best_response [1/2, 1/2] [[2, 2], [2, 2], [0, 0]]) []) [1/2, 1/2])) :=
  ⟨by simp, by simp, best_response_is_first_maximizer [1/2, 1/2] [[2, 2], [2, 2], [0, 0]]
    (by simp) (by simp)⟩

lemma oneHot_length (n i : Nat) : (oneHot n i).length = n := by
  simp [oneHot]

lemma oneHot_zero_cons (n : Nat) : oneHot (n + 1) 0 = 1 :: List.replicate n 0 := by
  simp [oneHot, List.replicate_succ]

lemma oneHot_succ_cons (n i : Nat) : oneHot (n + 1) (i + 1) = 0 :: oneHot n i := by
  simp [oneHot, List.replicate_succ]

lemma allZero_replicate (n : Nat) : allZero (List.replicate n 0) = true := by
  induction n with
  | zero => rfl
  | succ k ih => simp [List.replicate_succ, allZero, ih]

lemma isOneHot_oneHot : ∀ n i : Nat, i < n → isOneHot (oneHot n i) = true := by
  intro n
  induction n with
  | zero => intro i hi; omega
  | succ k ih =>
    intro i hi
    cases i with
    | zero => rw [oneHot_zero_cons]; simp [isOneHot, allZero_replicate]
    | succ j =>
      rw [oneHot_succ_cons]
      have hj := ih j (by omega)
      simp [isOneHot, hj]

lemma best_response_lt_length (s : List ℚ) (M : List (List ℚ)) (hM : M ≠ []) :
    best_response s M < M.length := by
  have := argmax_lt_length (matVec M s) (matVec_ne_nil s hM)
  simpa [best_response, matVec_length] using this

lemma nashLoop_zero (A B : List (List ℚ)) (tol : ℚ) (sa sb : List ℚ) :
    nashLoop A B tol 0 sa sb = ⟨sa, sb, 0, false⟩ := rfl

lemma nashLoop_succ (A B : List (List ℚ)) (tol : ℚ) (fuel : Nat) (sa sb : List ℚ) :
    nashLoop A B tol (fuel + 1) sa sb =
    if allclose tol sa (nashRound A B sa sb).1 && allclose tol sb (nashRound A B sa sb).2 then
      ⟨(nashRound A B sa sb).1, (nashRound A B sa sb).2, 1, true⟩
    else
      ⟨(nashLoop A B tol fuel (nashRound A B sa sb).1 (nashRound A B sa sb).2).strategy_a,
       (nashLoop A B tol fuel (nashRound A B sa sb).1 (nashRound A B sa sb).2).strategy_b,
       (nashLoop A B tol fuel (nashRound A B sa sb).1 (nashRound A B sa sb).2).rounds + 1,
       (nashLoop A B tol fuel (nashRound A B sa sb).1 (nashRound A B sa sb).2).converged⟩ := rfl

lemma nashLoop_rounds_le (A B : List (List ℚ)) (tol : ℚ) :
    ∀ (fuel : Nat) (sa sb : List ℚ), (nashLoop A B tol fuel sa sb).rounds ≤ fuel := by
  intro fuel
  induction fuel with
  | zero => intro sa sb; rw [nashLoop_zero]
  | succ f ih =>
    intro sa sb
    rw [nashLoop_succ]
    by_cases h : allclose tol sa (nashRound A B sa sb).1 &&
        allclose tol sb (nashRound A B sa sb).2
    · simp [h]
    · simp only [h, if_false, Bool.false_eq_true]
      exact Nat.succ_le_succ (ih _ _)

lemma nashLoop_conv_or_exhaust (A B : List (List ℚ)) (tol : ℚ) :
    ∀ (fuel : Nat) (sa sb : List ℚ),
      (nashLoop A B tol fuel sa sb).converged = true ∨
      (nashLoop A B tol fuel sa sb).rounds = fuel := by
  intro fuel
  induction fuel with
  | zero => intro sa sb; right; rw [nashLoop_zero]
  | succ f ih =>
    intro sa sb
    rw [nashLoop_succ]
    by_cases h : allclose tol sa (nashRound A B sa sb).1 &&
        allclose tol sb (nashRound A B sa sb).2
    · left; simp [h]
    · simp only [h, if_false, Bool.false_eq_true]
      rcases ih (nashRound A B sa sb).1 (nashRound A B sa sb).2 with hc | hr
      · left; exact hc
      · right; simp [hr]

lemma nashLoop_converged_rounds_pos (A B : List (List ℚ)) (tol : ℚ) :
    ∀ (fuel : Nat) (sa sb : List ℚ),
      (nashLoop A B tol fuel sa sb).converged = true →
      1 ≤ (nashLoop A B tol fuel sa sb).rounds := by
  intro fuel
  induction fuel with
  | zero => intro sa sb h; rw [nashLoop_zero] at h; exact absurd h (by simp)
  | succ f _ =>
    intro sa sb _
    rw [nashLoop_succ]
    by_cases h : allclose tol sa (nashRound A B sa sb).1 &&
        allclose tol sb (nashRound A B sa sb).2
    · simp [h]
    · simp only [h, if_false, Bool.false_eq_true]
      omega

/-- C4: for matrices of matching shape and a positive iteration budget, the run
executes at most `max_iterations` rounds, and it ends either because some round's
convergence check passed (`converged`) or because the budget was exhausted
(`rounds = max_iterations`); the loop is a total function, so no other exit or
non-termination is possible. -/
theorem nash_terminates_within_budget (A B : List (List ℚ)) (max_iterations : Nat)
    (tolerance : ℚ) (hshape : A.map List.length = B.map List.length)
    (hpos : 0 < max_iterations) :
    (calculate_nash_equilibrium_run A B max_iterations tolerance).rounds ≤ max_iterations ∧
    ((calculate_nash_equilibrium_run A B max_iterations tolerance).converged = true ∨
     (calculate_nash_equilibrium_run A B max_iterations tolerance).rounds = max_iterations) := by
  unfold calculate_nash_equilibrium_run
  exact ⟨nashLoop_rounds_le A B tolerance max_iterations _ _,
    nashLoop_conv_or_exhaust A B tolerance max_iterations _ _⟩

/-- Witness for C4 at the example matrices of `main` with the default budget. -/
theorem nash_terminates_within_budget_witness :
    pdA.map List.length = pdB.map List.length ∧ 0 < 1000 ∧
    ((calculate_nash_equilibrium_run pdA pdB 1000 defaultTolerance).rounds ≤ 1000 ∧
     ((calculate_nash_equilibrium_run pdA pdB 1000 defaultTolerance).converged = true ∨
      (calculate_nash_equilibrium_run pdA pdB 1000 defaultTolerance).rounds = 1000)) :=
  ⟨by simp [pdA, pdB], by omega,
    nash_terminates_within_budget pdA pdB 1000 defaultTolerance (by simp [pdA, pdB]) (by omega)⟩

lemma nashRound_oneHot (A B : List (List ℚ)) (sa sb : List ℚ)
    (hA : A ≠ []) (hB : B ≠ []) :
    isOneHot (nashRound A B sa sb).1 = true ∧ isOneHot (nashRound A B sa sb).2 = true := by
  constructor
  · show isOneHot (oneHot A.length (best_response sb A)) = true
    exact isOneHot_oneHot _ _ (best_response_lt_length sb A hA)
  · show isOneHot (oneHot B.length (best_response (oneHot A.length (best_response sb A)) B)) = true
    exact isOneHot_oneHot _ _ (best_response_lt_length _ B hB)

lemma nashLoop_result_oneHot (A B : List (List ℚ)) (tol : ℚ)
    (hA : A ≠ []) (hB : B ≠ []) :
    ∀ (fuel : Nat) (sa sb : List ℚ), 1 ≤ fuel →
      isOneHot (nashLoop A B tol fuel sa sb).strategy_a = true ∧
      isOneHot (nashLoop A B tol fuel sa sb).strategy_b = true := by
  intro fuel
  induction fuel with
  | zero => intro sa sb h; omega
  | succ f ih =>
    intro sa sb _
    rw [nashLoop_succ]
    by_cases h : allclose tol sa (nashRound A B sa sb).1 &&
        allclose tol sb (nashRound A B sa sb).2
    · simpa [h] using nashRound_oneHot A B sa sb hA hB
    · simp only [h, if_false, Bool.false_eq_true]
      cases f with
      | zero => simpa [nashLoop_zero] using nashRound_oneHot A B sa sb hA hB
      | succ f' => exact ih _ _ (by omega)

/-- C5: whenever both matrices have at least one row, every strategy vector produced
by a round of the loop is one-hot, and for `max_iterations ≥ 1` both returned strategy
vectors are one-hot (which subsumes "one-hot or uniform": a uniform vector can survive
the first round only when it already is the one-hot `[1]` of a single-action player). -/
theorem nash_strategies_one_hot (A B : List (List ℚ)) (max_iterations : Nat)
    (tolerance : ℚ) (hA : A ≠ []) (hB : B ≠ []) :
    (∀ sa sb : List ℚ, isOneHot (nashRound A B sa sb).1 = true ∧
      isOneHot (nashRound A B sa sb).2 = true) ∧
    (1 ≤ max_iterations →
      isOneHot (calculate_nash_equilibrium A B max_iterations tolerance).1 = true ∧
      isOneHot (calculate_nash_equilibrium A B max_iterations tolerance).2 = true) := by
  refine ⟨fun sa sb => nashRound_oneHot A B sa sb hA hB, fun hpos => ?_⟩
  unfold calculate_nash_equilibrium calculate_nash_equilibrium_run
  exact nashLoop_result_oneHot A B tolerance hA hB max_iterations _ _ hpos

/-- Witness for C5 at the example matrices of `main`. -/
theorem nash_strategies_one_hot_witness :
    pdA ≠ [] ∧ pdB ≠ [] ∧
    ((∀ sa sb : List ℚ, isOneHot (nashRound pdA pdB sa sb).1 = true ∧
       isOneHot (nashRound pdA pdB sa sb).2 = true) ∧
     (1 ≤ 1000 →
       isOneHot (calculate_nash_equilibrium pdA pdB 1000 defaultTolerance).1 = true ∧
       isOneHot (calculate_nash_equilibrium pdA pdB 1000 defaultTolerance).2 = true)) :=
  ⟨by simp [pdA], by simp [pdB],
    nash_strategies_one_hot pdA pdB 1000 defaultTolerance (by simp [pdA]) (by simp [pdB])⟩

/-- C6: within one round, Player A's new strategy is the one-hot best response to the
opponent strategy `sb` of the previous round, Player B's new strategy is the one-hot
best response to the just-updated `strategy_a` (first component of the round's result),
and the round's outcome does not depend on the snapshot `prev_a` at all; the final
conjunct shows on a concrete instance that responding to the snapshot instead would
give a different strategy for B. -/
theorem round_uses_updated_strategy_a (A B : List (List ℚ)) (sa sb : List ℚ) :
    (nashRound A B sa sb).1 = oneHot A.length (best_response sb A) ∧
    (nashRound A B sa sb).2 = oneHot B.length (best_response (nashRound A B sa sb).1 B) ∧
    (∀ sa' : List ℚ, nashRound A B sa' sb = nashRound A B sa sb) ∧
    (nashRound [[0, 0], [1, 1]] [[1, 0], [0, 1]] [1, 0] [1, 0]).2 ≠
      oneHot 2 (best_response [1, 0] [[1, 0], [0, 1]]) := by
  refine ⟨rfl, rfl, fun _ => rfl, ?_⟩
  norm_num [nashRound, best_response, matVec, dot, argmax, maxVal, oneHot,
    List.replicate, List.set]

lemma allclose_iff (tol : ℚ) : ∀ a b : List ℚ, allclose tol a b = true ↔
    (a.length = b.length ∧
     ∀ i, i < a.length → |a.getD i 0 - b.getD i 0| ≤ tol + npRtol * |b.getD i 0|) := by
  intro a
  induction a with
  | nil =>
    intro b
    cases b with
    | nil => simp [allclose]
    | cons y ys => simp [allclose]
  | cons x xs ih =>
    intro b
    cases b with
    | nil => simp [allclose]
    | cons y ys =>
      simp only [allclose, Bool.and_eq_true, decide_eq_true_eq, ih ys, List.length_cons]
      constructor
      · rintro ⟨h1, hlen, h⟩
        refine ⟨by omega, ?_⟩
        intro i hi
        cases i with
        | zero => simpa using h1
        | succ j => simpa [List.getD_cons_succ] using h j (by omega)
      · rintro ⟨hlen, h⟩
        refine ⟨by simpa using h 0 (by omega), by omega, ?_⟩
        intro j hj
        simpa [List.getD_cons_succ] using h (j + 1) (by omega)

/-- C3 (amended): the stop decision is exactly the source's
`np.allclose(prev_a, new_a, atol=tol) and np.allclose(prev_b, new_b, atol=tol)`; since
`numpy` keeps its default `rtol = 1e-5`, a round stops iff for both players every
component satisfies `|new - prev| ≤ tolerance + (1e-5)·|new|` — the absolute-difference
test of the claim plus the relative term, and nothing else. -/
theorem stop_decision_is_allclose (A B : List (List ℚ)) (tol : ℚ) :
    (∀ a b : List ℚ, allclose tol a b = true ↔
      (a.length = b.length ∧
       ∀ i, i < a.length → |a.getD i 0 - b.getD i 0| ≤ tol + npRtol * |b.getD i 0|)) ∧
    (∀ (fuel : Nat) (sa sb : List ℚ),
      ((nashLoop A B tol (fuel + 1) sa sb).rounds = 1 ∧
       (nashLoop A B tol (fuel + 1) sa sb).converged = true) ↔
      (allclose tol sa (nashRound A B sa sb).1 &&
       allclose tol sb (nashRound A B sa sb).2) = true) := by
  refine ⟨allclose_iff tol, ?_⟩
  intro fuel sa sb
  rw [nashLoop_succ]
  by_cases h : allclose tol sa (nashRound A B sa sb).1 &&
      allclose tol sb (nashRound A B sa sb).2
  · simp [h]
  · rw [if_neg (by simp [h])]
    constructor
    · rintro ⟨h1, h2⟩
      have h1' : (nashLoop A B tol fuel (nashRound A B sa sb).1
          (nashRound A B sa sb).2).rounds + 1 = 1 := h1
      have h2' : (nashLoop A B tol fuel (nashRound A B sa sb).1
          (nashRound A B sa sb).2).converged = true := h2
      have h3 := nashLoop_converged_rounds_pos A B tol fuel
        (nashRound A B sa sb).1 (nashRound A B sa sb).2 h2'
      omega
    · intro hc
      exact absurd hc h

/-- C3 counterexample: with 3×3 matrices `[[1,0,0],[0,0,0],[0,0,0]]` for both players
and `tolerance = 2/3 - 1e-5`, the run stops at round 1 (the `allclose` check passes
thanks to the `rtol·|new|` slack), although the new `strategy_a = [1,0,0]` is NOT
componentwise within `tolerance` of `prev_a = uniform 3 = [1/3,1/3,1/3]`: the first
component differs by `2/3 > tolerance`.  So absolute difference at most `tolerance` is
not the whole stop criterion, refuting the claim as stated. -/
theorem stop_decision_not_abs_only_counterexample :
    calculate_nash_equilibrium_run [[1, 0, 0], [0, 0, 0], [0, 0, 0]]
      [[1, 0, 0], [0, 0, 0], [0, 0, 0]] 1000 (199997 / 300000) =
      ⟨[1, 0, 0], [1, 0, 0], 1, true⟩ ∧
    withinTolAbs (199997 / 300000) (uniform 3) [1, 0, 0] = false := by
  constructor
  · unfold calculate_nash_equilibrium_run
    rw [show ([[1, 0, 0], [0, 0, 0], [0, 0, 0]] : List (List ℚ)).length = 3 from rfl]
    have hu : uniform 3 = [1/3, 1/3, 1/3] := by norm_num [uniform, List.replicate]
    have hr : nashRound [[1, 0, 0], [0, 0, 0], [0, 0, 0]] [[1, 0, 0], [0, 0, 0], [0, 0, 0]]
        [1/3, 1/3, 1/3] [1/3, 1/3, 1/3] = ([1, 0, 0], [1, 0, 0]) := by
      norm_num [nashRound, best_response, matVec, dot, argmax, maxVal, oneHot,
        List.replicate, List.set]
    rw [hu, show (1000 : Nat) = 999 + 1 from rfl, nashLoop, hr]
    norm_num [allclose, npRtol, abs]
  · norm_num [withinTolAbs, uniform, List.replicate, abs]

/-- Witness for C3 (amended) at the example matrices with the default tolerance. -/
theorem stop_decision_is_allclose_witness :
    (∀ a b : List ℚ, allclose defaultTolerance a b = true ↔
      (a.length = b.length ∧
       ∀ i, i < a.length →
         |a.getD i 0 - b.getD i 0| ≤ defaultTolerance + npRtol * |b.getD i 0|)) ∧
    (∀ (fuel : Nat) (sa sb : List ℚ),
      ((nashLoop pdA pdB defaultTolerance (fuel + 1) sa sb).rounds = 1 ∧
       (nashLoop pdA pdB defaultTolerance (fuel + 1) sa sb).converged = true) ↔
      (allclose defaultTolerance sa (nashRound pdA pdB sa sb).1 &&
       allclose defaultTolerance sb (nashRound pdA pdB sa sb).2) = true) :=
  stop_decision_is_allclose pdA pdB defaultTolerance

/-- Witness for C6 at the example matrices and a concrete state. -/
theorem round_uses_updated_strategy_a_witness :
    (nashRound pdA pdB [1, 0] [0, 1]).1 = oneHot pdA.length (best_response [0, 1] pdA) ∧
    (nashRound pdA pdB [1, 0] [0, 1]).2 =
      oneHot pdB.length (best_response (nashRound pdA pdB [1, 0] [0, 1]).1 pdB) ∧
    (∀ sa' : List ℚ, nashRound pdA pdB sa' [0, 1] = nashRound pdA pdB [1, 0] [0, 1]) ∧
    (nashRound [[0, 0], [1, 1]] [[1, 0], [0, 1]] [1, 0] [1, 0]).2 ≠
      oneHot 2 (best_response [1, 0] [[1, 0], [0, 1]]) :=
  round_uses_updated_strategy_a pdA pdB [1, 0] [0, 1]

lemma pd_run_eval : calculate_nash_equilibrium_run pdA pdB 1000 (1 / 1000000) =
    ⟨[0, 1], [1, 0], 2, true⟩ := by
  unfold calculate_nash_equilibrium_run
  rw [show pdA.length = 2 from rfl, show pdB.length = 2 from rfl]
  have hu : uniform 2 = [1/2, 1/2] := by norm_num [uniform, List.replicate]
  have h1 : nashRound pdA pdB [1/2, 1/2] [1/2, 1/2] = ([0, 1], [1, 0]) := by
    norm_num [nashRound, best_response, matVec, dot, argmax, maxVal, oneHot,
      pdA, pdB, List.replicate, List.set]
  have h2 : nashRound pdA pdB [0, 1] [1, 0] = ([0, 1], [1, 0]) := by
    norm_num [nashRound, best_response, matVec, dot, argmax, maxVal, oneHot,
      pdA, pdB, List.replicate, List.set]
  rw [hu, show (1000 : Nat) = 999 + 1 from rfl, nashLoop, h1]
  norm_num [allclose, npRtol, abs]
  rw [show (999 : Nat) = 998 + 1 from rfl, nashLoop, h2]
  norm_num [allclose, npRtol, abs]

/-- C1 counterexample: on `main`'s matrices with the default `max_iterations` and
`tolerance`, the returned pair is not `([0,1], [0,1])` — Player B does not end on
action index 1.  With `payoff_matrix_b = [[3,5],[0,1]]` and the code's
`best_b = argmax(payoff_matrix_b @ strategy_a)`, B's best response to A playing
index 1 is index 0 (payoff 5 against 1). -/
theorem pd_example_not_both_defect :
    calculate_nash_equilibrium pdA pdB defaultMaxIterations defaultTolerance ≠
      ([0, 1], [0, 1]) := by
  unfold calculate_nash_equilibrium defaultMaxIterations defaultTolerance
  rw [pd_run_eval]
  intro h
  have h2 : ([1, 0] : List ℚ) = [0, 1] := congrArg Prod.snd h
  simp at h2

/-- C1 (amended): on `main`'s matrices with the default `max_iterations = 1000` and
`tolerance = 1e-6`, the run converges at round 2 and returns `([0,1], [1,0])`:
Player A ends on action index 1 and Player B on action index 0. -/
theorem pd_example_converges_round_two :
    calculate_nash_equilibrium pdA pdB defaultMaxIterations defaultTolerance =
      ([0, 1], [1, 0]) ∧
    (calculate_nash_equilibrium_run pdA pdB defaultMaxIterations defaultTolerance).rounds = 2 ∧
    (calculate_nash_equilibrium_run pdA pdB defaultMaxIterations defaultTolerance).converged =
      true := by
  unfold calculate_nash_equilibrium defaultMaxIterations defaultTolerance
  rw [pd_run_eval]
  exact ⟨rfl, rfl, rfl⟩

lemma nashLoop_step_conv (A B : List (List ℚ)) (tol : ℚ) (fuel : Nat) (sa sb p1 p2 : List ℚ)
    (hr : nashRound A B sa sb = (p1, p2))
    (hc : (allclose tol sa p1 && allclose tol sb p2) = true) :
    nashLoop A B tol (fuel + 1) sa sb = ⟨p1, p2, 1, true⟩ := by
  rw [nashLoop_succ, hr, if_pos (by simp [hc])]

lemma nashLoop_step_not_conv (A B : List (List ℚ)) (tol : ℚ) (fuel : Nat)
    (sa sb p1 p2 : List ℚ) (hr : nashRound A B sa sb = (p1, p2))
    (hc : (allclose tol sa p1 && allclose tol sb p2) = false) :
    nashLoop A B tol (fuel + 1) sa sb =
    ⟨(nashLoop A B tol fuel p1 p2).strategy_a, (nashLoop A B tol fuel p1 p2).strategy_b,
     (nashLoop A B tol fuel p1 p2).rounds + 1, (nashLoop A B tol fuel p1 p2).converged⟩ := by
  rw [nashLoop_succ, hr, if_neg (by simp [hc])]

lemma mp_round_u : nashRound mpA mpB [1/2, 1/2] [1/2, 1/2] = ([1, 0], [0, 1]) := by
  norm_num [nashRound, best_response, matVec, dot, argmax, maxVal, oneHot,
    mpA, mpB, List.replicate, List.set]

lemma mp_round_s1 : nashRound mpA mpB [1, 0] [0, 1] = ([0, 1], [1, 0]) := by
  norm_num [nashRound, best_response, matVec, dot, argmax, maxVal, oneHot,
    mpA, mpB, List.replicate, List.set]

lemma mp_round_s2 : nashRound mpA mpB [0, 1] [1, 0] = ([1, 0], [0, 1]) := by
  norm_num [nashRound, best_response, matVec, dot, argmax, maxVal, oneHot,
    mpA, mpB, List.replicate, List.set]

lemma mp_ncu : (allclose (1 / 1000000) [1/2, 1/2] [1, 0] &&
    allclose (1 / 1000000) [1/2, 1/2] [0, 1]) = false := by
  norm_num [allclose, npRtol, abs]

lemma mp_nc1 : (allclose (1 / 1000000) [1, 0] [0, 1] &&
    allclose (1 / 1000000) [0, 1] [1, 0]) = false := by
  norm_num [allclose, npRtol, abs]

lemma mp_nc2 : (allclose (1 / 1000000) [0, 1] [1, 0] &&
    allclose (1 / 1000000) [1, 0] [0, 1]) = false := by
  norm_num [allclose, npRtol, abs]

lemma mp_aux : ∀ (fuel : Nat) (sa sb : List ℚ),
    ((sa = [1, 0] ∧ sb = [0, 1]) ∨ (sa = [0, 1] ∧ sb = [1, 0])) →
    (nashLoop mpA mpB (1 / 1000000) fuel sa sb).rounds = fuel ∧
    (nashLoop mpA mpB (1 / 1000000) fuel sa sb).converged = false ∧
    (((nashLoop mpA mpB (1 / 1000000) fuel sa sb).strategy_a = [1, 0] ∧
      (nashLoop mpA mpB (1 / 1000000) fuel sa sb).strategy_b = [0, 1]) ∨
     ((nashLoop mpA mpB (1 / 1000000) fuel sa sb).strategy_a = [0, 1] ∧
      (nashLoop mpA mpB (1 / 1000000) fuel sa sb).strategy_b = [1, 0])) := by
  intro fuel
  induction fuel with
  | zero =>
    rintro sa sb (⟨h1, h2⟩ | ⟨h1, h2⟩) <;> subst h1 <;> subst h2
    · exact ⟨rfl, rfl, Or.inl ⟨rfl, rfl⟩⟩
    · exact ⟨rfl, rfl, Or.inr ⟨rfl, rfl⟩⟩
  | succ f ih =>
    rintro sa sb (⟨h1, h2⟩ | ⟨h1, h2⟩) <;> subst h1 <;> subst h2
    · rw [nashLoop_step_not_conv mpA mpB (1 / 1000000) f [1, 0] [0, 1] [0, 1] [1, 0]
        mp_round_s1 mp_nc1]
      obtain ⟨ha, hb, hc⟩ := ih [0, 1] [1, 0] (Or.inr ⟨rfl, rfl⟩)
      refine ⟨?_, hb, hc⟩
      show (nashLoop mpA mpB (1 / 1000000) f [0, 1] [1, 0]).rounds + 1 = f + 1
      omega
    · rw [nashLoop_step_not_conv mpA mpB (1 / 1000000) f [0, 1] [1, 0] [1, 0] [0, 1]
        mp_round_s2 mp_nc2]
      obtain ⟨ha, hb, hc⟩ := ih [1, 0] [0, 1] (Or.inl ⟨rfl, rfl⟩)
      refine ⟨?_, hb, hc⟩
      show (nashLoop mpA mpB (1 / 1000000) f [1, 0] [0, 1]).rounds + 1 = f + 1
      omega

/-- C9: on the matching-pennies matrices (no pure-strategy equilibrium) with the
default tolerance, no round's convergence check ever passes, the loop runs for the
full `max_iterations` budget and terminates there, and the returned strategies are
the one-hot pair current at the final round. -/
theorem matching_pennies_exhausts_budget (max_iterations : Nat) (h : 1 ≤ max_iterations) :
    (calculate_nash_equilibrium_run mpA mpB max_iterations defaultTolerance).converged =
      false ∧
    (calculate_nash_equilibrium_run mpA mpB max_iterations defaultTolerance).rounds =
      max_iterations ∧
    isOneHot (calculate_nash_equilibrium_run mpA mpB max_iterations
      defaultTolerance).strategy_a = true ∧
    isOneHot (calculate_nash_equilibrium_run mpA mpB max_iterations
      defaultTolerance).strategy_b = true := by
  obtain ⟨k, rfl⟩ : ∃ k, max_iterations = k + 1 := ⟨max_iterations - 1, by omega⟩
  unfold calculate_nash_equilibrium_run defaultTolerance
  rw [show mpA.length = 2 from rfl, show mpB.length = 2 from rfl]
  have hu : uniform 2 = [1/2, 1/2] := by norm_num [uniform, List.replicate]
  rw [hu, nashLoop_step_not_conv mpA mpB (1 / 1000000) k [1/2, 1/2] [1/2, 1/2] [1, 0] [0, 1]
    mp_round_u mp_ncu]
  obtain ⟨ha, hb, hc⟩ := mp_aux k [1, 0] [0, 1] (Or.inl ⟨rfl, rfl⟩)
  have h10 : isOneHot ([1, 0] : List ℚ) = true := by norm_num [isOneHot, allZero]
  have h01 : isOneHot ([0, 1] : List ℚ) = true := by norm_num [isOneHot, allZero]
  refine ⟨hb, ?_, ?_, ?_⟩
  · show (nashLoop mpA mpB (1 / 1000000) k [1, 0] [0, 1]).rounds + 1 = k + 1
    omega
  · show isOneHot (nashLoop mpA mpB (1 / 1000000) k [1, 0] [0, 1]).strategy_a = true
    rcases hc with ⟨hA1, _⟩ | ⟨hA1, _⟩ <;> rw [hA1]
    · exact h10
    · exact h01
  · show isOneHot (nashLoop mpA mpB (1 / 1000000) k [1, 0] [0, 1]).strategy_b = true
    rcases hc with ⟨_, hB1⟩ | ⟨_, hB1⟩ <;> rw [hB1]
    · exact h01
    · exact h10

/-- Witness for C9 at `max_iterations = 3`. -/
theorem matching_pennies_exhausts_budget_witness :
    (1 : Nat) ≤ 3 ∧
    ((calculate_nash_equilibrium_run mpA mpB 3 defaultTolerance).converged = false ∧
     (calculate_nash_equilibrium_run mpA mpB 3 defaultTolerance).rounds = 3 ∧
     isOneHot (calculate_nash_equilibrium_run mpA mpB 3 defaultTolerance).strategy_a = true ∧
     isOneHot (calculate_nash_equilibrium_run mpA mpB 3 defaultTolerance).strategy_b = true) :=
  ⟨by omega, matching_pennies_exhausts_budget 3 (by omega)⟩

lemma best_response_checked_ok (s : List ℚ) (M : List (List ℚ))
    (hM : M ≠ []) (hlen : ∀ row ∈ M, row.length = s.length) :
    best_response_checked s M = .ok (best_response s M) := by
  have hall : M.all (fun row => row.length == s.length) = true := by
    rw [List.all_eq_true]
    intro row hr
    simpa using hlen row hr
  unfold best_response_checked
  rw [if_pos hall]
  cases hmv : matVec M s with
  | nil => exact absurd hmv (matVec_ne_nil s hM)
  | cons p ps =>
    simp [best_response, hmv]

lemma best_response_checked_error (s : List ℚ) (M : List (List ℚ)) (n : Nat)
    (hM : M ≠ []) (hrect : ∀ row ∈ M, row.length = n) (hne : s.length ≠ n) :
    best_response_checked s M = .error "matmul: dimension mismatch" := by
  have hall : M.all (fun row => row.length == s.length) = false := by
    cases M with
    | nil => exact absurd rfl hM
    | cons r rs =>
      have h1 : r.length = n := hrect r (by simp)
      have h2 : (r.length == s.length) = false := by
        rw [h1]
        simp only [beq_eq_false_iff_ne, ne_eq]
        omega
      simp [List.all_cons, h2]
  unfold best_response_checked
  rw [if_neg (by simp [hall])]

/-- C7: with a rectangular matrix of column count `n` and at least one row, the
`numpy`-faithful `best_response` fails with the dimension-mismatch error exactly when
the strategy length differs from `n`, and succeeds (returning the pure
`best_response`) when it matches; being a pure function of its arguments, it mutates
neither the strategy nor the matrix in any case. -/
theorem best_response_dimension_mismatch (s : List ℚ) (M : List (List ℚ)) (n : Nat)
    (hM : M ≠ []) (hrect : ∀ row ∈ M, row.length = n) :
    (s.length ≠ n → best_response_checked s M = .error "matmul: dimension mismatch") ∧
    (s.length = n → best_response_checked s M = .ok (best_response s M)) := by
  constructor
  · intro hne
    exact best_response_checked_error s M n hM hrect hne
  · intro he
    exact best_response_checked_ok s M hM (fun row hr => by rw [hrect row hr, he])

/-- Witness for C7: a length-2 strategy against a 2×3 matrix errors; the same matrix
with a length-3 strategy succeeds. -/
theorem best_response_dimension_mismatch_witness :
    ([[1, 2, 3], [4, 5, 6]] : List (List ℚ)) ≠ [] ∧
    (∀ row ∈ ([[1, 2, 3], [4, 5, 6]] : List (List ℚ)), row.length = 3) ∧
    ((([1, 2] : List ℚ).length ≠ 3 →
      best_response_checked [1, 2] [[1, 2, 3], [4, 5, 6]] =
        .error "matmul: dimension mismatch") ∧
     (([1, 2] : List ℚ).length = 3 →
      best_response_checked [1, 2] [[1, 2, 3], [4, 5, 6]] =
        .ok (best_response [1, 2] [[1, 2, 3], [4, 5, 6]]))) :=
  ⟨by simp, by simp,
    best_response_dimension_mismatch [1, 2] [[1, 2, 3], [4, 5, 6]] 3 (by simp) (by simp)⟩

/-- C8: the best-response contract (maximiser with lowest-index tie-break) determines
a unique index, `best_response` satisfies it, and both `best_response` and
`calculate_nash_equilibrium` return equal values on equal inputs — the embedding has
no hidden state or randomness to depend on. -/
theorem nash_deterministic (s : List ℚ) (M : List (List ℚ)) (i j : Nat) (hM : M ≠ [])
    (hi : IsBestResponseSpec s M i) (hj : IsBestResponseSpec s M j) :
    i = j ∧ IsBestResponseSpec s M (best_response s M) ∧
    (∀ (A B A' B' : List (List ℚ)) (it it' : Nat) (tol tol' : ℚ),
      A = A' → B = B' → it = it' → tol = tol' →
      best_response s M = best_response s M ∧
      calculate_nash_equilibrium A B it tol = calculate_nash_equilibrium A' B' it' tol') := by
  refine ⟨isBestResponseSpec_unique hi hj, isBestResponseSpec_best_response s M hM, ?_⟩
  rintro A B A' B' it it' tol tol' rfl rfl rfl rfl
  exact ⟨rfl, rfl⟩

/-- Witness for C8 at `s = [1]`, `M = [[5],[3]]`, where index 0 satisfies the contract. -/
theorem nash_deterministic_witness :
    ([[5], [3]] : List (List ℚ)) ≠ [] ∧ IsBestResponseSpec [1] [[5], [3]] 0 ∧
    ((0 : Nat) = 0 ∧ IsBestResponseSpec [1] [[5], [3]] (best_response [1] [[5], [3]]) ∧
     (∀ (A B A' B' : List (List ℚ)) (it it' : Nat) (tol tol' : ℚ),
       A = A' → B = B' → it = it' → tol = tol' →
       best_response [1] [[5], [3]] = best_response [1] [[5], [3]] ∧
       calculate_nash_equilibrium A B it tol =
         calculate_nash_equilibrium A' B' it' tol')) := by
  have hspec : IsBestResponseSpec [1] [[5], [3]] 0 := by
    refine ⟨by norm_num, ?_, ?_⟩
    · intro j hj
      have hj2 : j < 2 := by simpa using hj
      interval_cases j <;>
        norm_num [dot, List.getD_cons_zero, List.getD_cons_succ]
    · intro j hj
      omega
  exact ⟨by simp, hspec, nash_deterministic [1] [[5], [3]] 0 0 (by simp) hspec hspec⟩

lemma nashLoopChecked_succ (A B : List (List ℚ)) (tol : ℚ) (fuel : Nat) (sa sb : List ℚ) :
    nashLoopChecked A B tol (fuel + 1) sa sb =
    match nashRoundChecked A B sa sb with
    | .error e => .error e
    | .ok p =>
      if allclose tol sa p.1 && allclose tol sb p.2 then .ok (p.1, p.2)
      else nashLoopChecked A B tol fuel p.1 p.2 := rfl

lemma nashRoundChecked_ok (A B : List (List ℚ)) (m n : Nat)
    (hm : 1 ≤ m) (hn : 1 ≤ n) (hA : A.length = m) (hAr : ∀ row ∈ A, row.length = n)
    (hB : B.length = n) (hBr : ∀ row ∈ B, row.length = m) (sa sb : List ℚ)
    (hsa : sa.length = m) (hsb : sb.length = n) :
    nashRoundChecked A B sa sb = .ok (nashRound A B sa sb) ∧
    (nashRound A B sa sb).1.length = m ∧ (nashRound A B sa sb).2.length = n := by
  have hAne : A ≠ [] := List.length_pos.mp (by omega)
  have hBne : B ≠ [] := List.length_pos.mp (by omega)
  have h1 : best_response_checked sb A = .ok (best_response sb A) :=
    best_response_checked_ok sb A hAne (fun row hr => by rw [hAr row hr, hsb])
  have h2 : best_response_checked (oneHot A.length (best_response sb A)) B =
      .ok (best_response (oneHot A.length (best_response sb A)) B) :=
    best_response_checked_ok _ B hBne (fun row hr => by rw [hBr row hr, oneHot_length, hA])
  refine ⟨?_, ?_, ?_⟩
  · unfold nashRoundChecked
    simp only [h1, h2]
    rfl
  · show (oneHot A.length (best_response sb A)).length = m
    rw [oneHot_length, hA]
  · show (oneHot B.length (best_response (oneHot A.length (best_response sb A)) B)).length = n
    rw [oneHot_length, hB]

lemma nashLoopChecked_ok (A B : List (List ℚ)) (m n : Nat) (tol : ℚ)
    (hm : 1 ≤ m) (hn : 1 ≤ n) (hA : A.length = m) (hAr : ∀ row ∈ A, row.length = n)
    (hB : B.length = n) (hBr : ∀ row ∈ B, row.length = m) :
    ∀ (fuel : Nat) (sa sb : List ℚ), sa.length = m → sb.length = n →
      ∃ ra rb, nashLoopChecked A B tol fuel sa sb = .ok (ra, rb) ∧
        ra.length = m ∧ rb.length = n := by
  intro fuel
  induction fuel with
  | zero =>
    intro sa sb hsa hsb
    exact ⟨sa, sb, rfl, hsa, hsb⟩
  | succ f ih =>
    intro sa sb hsa hsb
    obtain ⟨hok, hl1, hl2⟩ := nashRoundChecked_ok A B m n hm hn hA hAr hB hBr sa sb hsa hsb
    rw [nashLoopChecked_succ, hok]
    by_cases hc : allclose tol sa (nashRound A B sa sb).1 &&
        allclose tol sb (nashRound A B sa sb).2
    · refine ⟨(nashRound A B sa sb).1, (nashRound A B sa sb).2, ?_, hl1, hl2⟩
      simp [hc]
    · have hrec := ih (nashRound A B sa sb).1 (nashRound A B sa sb).2 hl1 hl2
      simpa [hc] using hrec

/-- C10: `calculate_nash_equilibrium` performs no shape-equality validation of its
own: for an `m×n` matrix A and an `n×m` matrix B (multiplication-compatible but not
necessarily of identical shape, with `m, n ≥ 1`), the `numpy`-faithful run raises no
dimension error in any round and returns a length-`m` and a length-`n` strategy
vector; the identical-shape check lives only in the `main` harness. -/
theorem no_shape_validation_inside_core (A B : List (List ℚ)) (m n max_iterations : Nat)
    (tolerance : ℚ) (hm : 1 ≤ m) (hn : 1 ≤ n)
    (hA : A.length = m) (hAr : ∀ row ∈ A, row.length = n)
    (hB : B.length = n) (hBr : ∀ row ∈ B, row.length = m) :
    ∃ ra rb, calculate_nash_equilibrium_checked A B max_iterations tolerance =
      .ok (ra, rb) ∧ ra.length = m ∧ rb.length = n := by
  unfold calculate_nash_equilibrium_checked
  exact nashLoopChecked_ok A B m n tolerance hm hn hA hAr hB hBr max_iterations _ _
    (by simp [uniform, hA]) (by simp [uniform, hB])

/-- Witness for C10 on a 2×3 matrix A and a 3×2 matrix B. -/
theorem no_shape_validation_inside_core_witness :
    (1 : Nat) ≤ 2 ∧ (1 : Nat) ≤ 3 ∧
    ([[1, 2, 3], [4, 5, 6]] : List (List ℚ)).length = 2 ∧
    (∀ row ∈ ([[1, 2, 3], [4, 5, 6]] : List (List ℚ)), row.length = 3) ∧
    ([[1, 2], [3, 4], [5, 6]] : List (List ℚ)).length = 3 ∧
    (∀ row ∈ ([[1, 2], [3, 4], [5, 6]] : List (List ℚ)), row.length = 2) ∧
    (∃ ra rb, calculate_nash_equilibrium_checked [[1, 2, 3], [4, 5, 6]]
      [[1, 2], [3, 4], [5, 6]] 4 (1 / 1000000) = .ok (ra, rb) ∧
      ra.length = 2 ∧ rb.length = 3) :=
  ⟨by omega, by omega, by simp, by simp, by simp, by simp,
    no_shape_validation_inside_core [[1, 2, 3], [4, 5, 6]] [[1, 2], [3, 4], [5, 6]]
      2 3 4 (1 / 1000000) (by omega) (by omega) (by simp) (by simp) (by simp) (by simp)⟩

end GameTheory
